import Mathlib

/-!
Verification of the local notification re-alerting engine of MyCalendarApp
(`src/lib/notifications.ts`): the nag-campaign state machine, the stop-state
store, the due-event watcher and the single-shot scheduler, shallowly embedded
as pure Lean functions over an explicit state record.  Timestamps are epoch
milliseconds (`Int`); the event loop's interleaving is modelled by exposing the
timer-tick body and the asynchronous fire-completion handler as separate state
transitions.
-/

set_option linter.unreachableTactic false
set_option linter.unusedTactic false

namespace MyCalendar

/-! ### Calendar arithmetic

Models the dayjs operations the source uses: parsing of `"YYYY-MM-DD"` and
`"HH:mm"` strings, conversion to epoch milliseconds, calendar-unit addition and
formatting back to `"YYYY-MM-DD"`.  Local time is identified with UTC; the
model covers years from 1970 on, which is the range the application's event
dates live in. -/

def daysInMonth (y m : Nat) : Nat :=
  if m = 2 then (if y % 4 = 0 ∧ (y % 100 ≠ 0 ∨ y % 400 = 0) then 29 else 28)
  else if m = 4 ∨ m = 6 ∨ m = 9 ∨ m = 11 then 30
  else 31

/-- Days since 1970-01-01 of the civil date `y-m-d` (for `y ≥ 1970`). -/
def daysFromCivil (y m d : Nat) : Nat :=
  let yy := if m ≤ 2 then y - 1 else y
  let era := yy / 400
  let yoe := yy % 400
  let mp := (m + 9) % 12
  let doy := (153 * mp + 2) / 5 + d - 1
  let doe := yoe * 365 + yoe / 4 - yoe / 100 + doy
  era * 146097 + doe - 719468

/-- Civil date of the day that is `z` days after 1970-01-01. -/
def civilFromDays (z : Nat) : Nat × Nat × Nat :=
  let w := z + 719468
  let era := w / 146097
  let doe := w % 146097
  let yoe := (doe - doe / 1460 + doe / 36524 - doe / 146096) / 365
  let y := yoe + era * 400
  let doy := doe - (365 * yoe + yoe / 4 - yoe / 100)
  let mp := (5 * doy + 2) / 153
  let d := doy - (153 * mp + 2) / 5 + 1
  let m := if mp < 10 then mp + 3 else mp - 9
  (if m ≤ 2 then y + 1 else y, m, d)

/-- Epoch milliseconds of `y-m-d hh:mi` (local = UTC in this model). -/
def epochMs (y m d hh mi : Nat) : Int :=
  ((daysFromCivil y m d) * 86400000 + hh * 3600000 + mi * 60000 : Nat)

def splitOnChar (c : Char) : List Char → List (List Char)
  | [] => [[]]
  | a :: rest =>
    let r := splitOnChar c rest
    if a = c then [] :: r
    else
      match r with
      | [] => [[a]]
      | g :: gs => (a :: g) :: gs

def digitsVal (l : List Char) : Option Nat :=
  if l = [] then none
  else
    l.foldl
      (fun acc c =>
        match acc with
        | none => none
        | some n => if c.isDigit then some (n * 10 + (c.toNat - 48)) else none)
      (some 0)

/-- Parse `"YYYY-MM-DD"`; `none` models a dayjs Invalid Date.  Validity is
restricted to real calendar dates with year ≥ 1970 (the model's range). -/
def parseDateYmd (s : String) : Option (Nat × Nat × Nat) :=
  match (splitOnChar (Char.ofNat 45) s.toList).map digitsVal with
  | [some y, some m, some d] =>
    if 1970 ≤ y ∧ 1 ≤ m ∧ m ≤ 12 ∧ 1 ≤ d ∧ d ≤ daysInMonth y m then some (y, m, d)
    else none
  | _ => none

/-- Parse `"HH:mm"`; `none` models a dayjs Invalid Date. -/
def parseHm (s : String) : Option (Nat × Nat) :=
  match (splitOnChar (Char.ofNat 58) s.toList).map digitsVal with
  | [some hh, some mi] => if hh ≤ 23 ∧ mi ≤ 59 then some (hh, mi) else none
  | _ => none

/-- Epoch ms of the dayjs parse of `"<ds> <ts>"` with format
`"YYYY-MM-DD HH:mm"`; `none` models an Invalid Date. -/
def dateTimeMs (ds ts : String) : Option Int := do
  let (y, m, d) ← parseDateYmd ds
  let (hh, mi) ← parseHm ts
  some (epochMs y m d hh mi)

/-- Day-of-month-clamped month addition, the dayjs `add(i, "month")`
semantics; `add(i, "year")` is the same with `12 * i` months. -/
def addMonths (y m d i : Nat) : Nat × Nat × Nat :=
  let total := y * 12 + (m - 1) + i
  let y2 := total / 12
  let m2 := total % 12 + 1
  (y2, m2, min d (daysInMonth y2 m2))

def digitChar (n : Nat) : Char := Char.ofNat (48 + n % 10)

def natToDigitsAux : Nat → Nat → List Char → List Char
  | 0, _, acc => acc
  | fuel + 1, n, acc =>
    if n < 10 then digitChar n :: acc
    else natToDigitsAux fuel (n / 10) (digitChar n :: acc)

def natToString (n : Nat) : String := String.mk (natToDigitsAux (n + 1) n [])

def pad2 (n : Nat) : String := if n < 10 then "0" ++ natToString n else natToString n

/-- dayjs `format("YYYY-MM-DD")` of a civil date. -/
def formatYmd : Nat × Nat × Nat → String
  | (y, m, d) => natToString y ++ "-" ++ pad2 m ++ "-" ++ pad2 d

/-- JS lexicographic string comparison `a <= b` (code-unit order). -/
def charListLe : List Char → List Char → Bool
  | [], _ => true
  | _ :: _, [] => false
  | a :: as, b :: bs =>
    if a.toNat < b.toNat then true
    else if b.toNat < a.toNat then false
    else charListLe as bs

/-! ### The event record

`CalendarEvent` is the record the core consumes from the data layer
(`src/lib/database.ts`, spec §3): `{id, date "YYYY-MM-DD", time? "HH:mm",
remindOffsetMin?, repeatRule?, type, payload?}`.  The JSON `payload` string is
represented by the outcome of `JSON.parse` restricted to the three fields the
core probes (`endDate`, `endTime`, `isAllDay`); `PayloadJson.malformed` stands
for a string on which `JSON.parse` throws, and `Option String` fields carry JS
truthiness (`some ""` is falsy). -/

inductive PayloadJson
  | malformed
  | fields (endDate endTime : Option String) (isAllDay : Bool)
deriving DecidableEq

structure CalendarEvent where
  id : String
  date : String
  time : Option String
  remindOffsetMin : Option Int
  repeatRule : Option String
  type : String
  title : String
  payload : Option PayloadJson
deriving DecidableEq

/-- `truthy ed` is `some s` exactly when the JS value behind `ed` is truthy. -/
def truthyStr : Option String → Option String
  | some s => if s = "" then none else some s
  | none => none

/-- Model of `buildEventDateTime`: parse `"<date> <time>"`, or default to
09:00 on `date` when the event has no explicit time. -/
def buildEventDateTime (event : CalendarEvent) : Option Int :=
  match event.time with
  | some t => dateTimeMs event.date t
  | none => (parseDateYmd event.date).map (fun ymd => epochMs ymd.1 ymd.2.1 ymd.2.2 9 0)

/-- Model of `buildNotifyTime`: event date-time minus
`remindOffsetMin ?? 0` minutes. -/
def buildNotifyTime (event : CalendarEvent) : Option Int :=
  (buildEventDateTime event).map (fun t => t - (event.remindOffsetMin.getD 0) * 60000)

/-- Model of `isTimeRangeEvent`: a non-all-day `"schedule"` event whose payload
carries a parseable `endDate`/`endTime` pair classifies as a range event with
that end timestamp; everything else (other types, absent or malformed payload,
falsy fields, all-day, invalid end date-time) does not. -/
def isTimeRangeEvent (event : CalendarEvent) : Option Int :=
  if event.type = "schedule" then
    match event.payload with
    | some (.fields ed et allDay) =>
      match truthyStr ed, truthyStr et, allDay with
      | some d, some t, false => dateTimeMs d t
      | _, _, _ => none
    | _ => none
  else none

/-- Model of `calculateNagEndTime`: the payload end time for range events,
otherwise the evaluation instant plus `DEFAULT_ALARM_MAX_DURATION_MIN = 5`
minutes (`dayjs().add(5, "minute")`; `now` is the evaluation instant). -/
def calculateNagEndTime (event : CalendarEvent) (now : Int) : Int :=
  match isTimeRangeEvent event with
  | some endMs => endMs
  | none => now + 5 * 60000

/-! ### Campaign-manager state

`NagState` gathers the module-level mutable state of `notifications.ts`: the
`activeNags` map (a timer is alive exactly while its key is in the map — the
source clears the interval and deletes the entry in the same synchronous
block, in both directions), the in-memory `stoppedOccurrences` set, and the
AsyncStorage contents as seen by `getItem` (`ReadResult.err` models a read
that rejects). -/

def getOccurrenceKey (eventId date : String) : String := eventId ++ ":" ++ date

/-- Storage key of an occurrence's stop flag (`"stop-reminding:" + key`). -/
def stopKeyOf (occurrenceKey : String) : String := "stop-reminding:" ++ occurrenceKey

inductive ReadResult
  | ok : Option String → ReadResult
  | err : ReadResult
deriving DecidableEq

structure ActiveNag where
  sending : Bool
  endAt : Int
deriving DecidableEq

@[ext]
structure NagState where
  activeNags : String → Option ActiveNag
  stoppedOccurrences : String → Bool
  storage : String → ReadResult

/-- Model of `isOccurrenceStopped`: in-memory set first; on a miss read the
persisted flag, cache and return true exactly on the literal value `"1"`;
any other value, absence, or a failed read yields false (the `catch` swallows
the error).  Returns the boolean together with the (possibly cached) state. -/
def isOccurrenceStopped (occurrenceKey : String) (s : NagState) : Bool × NagState :=
  if s.stoppedOccurrences occurrenceKey then (true, s)
  else
    match s.storage (stopKeyOf occurrenceKey) with
    | .ok (some v) =>
      if v = "1" then
        (true,
          { s with
            stoppedOccurrences := fun k =>
              if k = occurrenceKey then true else s.stoppedOccurrences k })
      else (false, s)
    | .ok none => (false, s)
    | .err => (false, s)

/-- Model of `stopOccurrenceNag`: clear the timer and remove the map entry if
present, always add the key to the in-memory stop set, and when `persist` is
set write the flag to storage (`writeOk` says whether that best-effort
`setItem` succeeds; its failure is caught and logged). -/
def stopOccurrenceNag (occurrenceKey : String) (persist writeOk : Bool) (s : NagState) :
    NagState :=
  let s1 :=
    match s.activeNags occurrenceKey with
    | some _ =>
      { s with activeNags := fun k => if k = occurrenceKey then none else s.activeNags k }
    | none => s
  let s2 :=
    { s1 with
      stoppedOccurrences := fun k =>
        if k = occurrenceKey then true else s1.stoppedOccurrences k }
  if persist && writeOk then
    { s2 with
      storage := fun k =>
        if k = stopKeyOf occurrenceKey then .ok (some "1") else s2.storage k }
  else s2

/-- Model of `stopEventNagging`: resolve the occurrence key and delegate. -/
def stopEventNagging (eventId date : String) (persist writeOk : Bool) (s : NagState) :
    NagState :=
  stopOccurrenceNag (getOccurrenceKey eventId date) persist writeOk s

/-- Result of `startEventNagging`: the new state plus whether the immediate
first notification was requested and whether a repeating timer was created. -/
structure StartResult where
  state : NagState
  immediateFire : Bool
  timerCreated : Bool

/-- Model of `startEventNagging` (`now` is the call instant used by
`calculateNagEndTime`): no-op without a valid `remindOffsetMin`; then the stop
check (which may cache a persisted flag into memory), then the already-active
check; past the guards it fires one immediate notification and registers the
campaign `{sending := false, endAt}`, creating the interval timer. -/
def startEventNagging (event : CalendarEvent) (now : Int) (s : NagState) : StartResult :=
  match event.remindOffsetMin with
  | none => ⟨s, false, false⟩
  | some r =>
    if r < 0 then ⟨s, false, false⟩
    else
      let key := getOccurrenceKey event.id event.date
      let checked := isOccurrenceStopped key s
      if checked.1 then ⟨checked.2, false, false⟩
      else if (checked.2.activeNags key).isSome then ⟨checked.2, false, false⟩
      else
        let endAt := calculateNagEndTime event now
        ⟨{ checked.2 with
            activeNags := fun k =>
              if k = key then some ⟨false, endAt⟩ else checked.2.activeNags k },
          true, true⟩

/-- Model of one interval-timer tick of a campaign (the closure created in
`startEventNagging`, which captured `occurrenceKey` and `endAt`): on expiry,
stop without persisting; if the in-memory stop set holds the key, clear the
timer and drop the entry; otherwise request a fire only when the slot exists
with `sending = false`, setting `sending := true` first.  The boolean of the
result records whether a fire was requested. -/
def nagTick (occurrenceKey : String) (endAt now : Int) (s : NagState) : NagState × Bool :=
  if endAt ≤ now then (stopOccurrenceNag occurrenceKey false false s, false)
  else if s.stoppedOccurrences occurrenceKey then
    (match s.activeNags occurrenceKey with
     | some _ =>
       { s with activeNags := fun k => if k = occurrenceKey then none else s.activeNags k }
     | none => s,
     false)
  else
    match s.activeNags occurrenceKey with
    | none => (s, false)
    | some slot =>
      if slot.sending then (s, false)
      else
        ({ s with
            activeNags := fun k =>
              if k = occurrenceKey then some { slot with sending := true }
              else s.activeNags k },
          true)

/-- Model of the `finally` block of a tick's asynchronous fire: when the entry
is still present, reset its `sending` flag. -/
def fireComplete (occurrenceKey : String) (s : NagState) : NagState :=
  match s.activeNags occurrenceKey with
  | some slot =>
    { s with
      activeNags := fun k =>
        if k = occurrenceKey then some { slot with sending := false }
        else s.activeNags k }
  | none => s

/-! ### Due-event watcher -/

/-- Model of the per-event decision in `startDueEventWatcher`'s `check`: skip
events without a valid `remindOffsetMin`; otherwise start nagging exactly when
`now.isAfter(notifyTime) && now.isBefore(nagEndTime)` (dayjs comparisons
against an Invalid Date are false). -/
def watcherEventCheck (event : CalendarEvent) (now : Int) : Bool :=
  match event.remindOffsetMin with
  | none => false
  | some r =>
    if r < 0 then false
    else
      match buildNotifyTime event with
      | none => false
      | some nt => decide (nt < now) && decide (now < calculateNagEndTime event now)

/-- The events of one watcher tick for which `startEventNagging` is invoked. -/
def dueWatcherCheck (events : List CalendarEvent) (now : Int) : List CalendarEvent :=
  events.filter (fun e => watcherEventCheck e now)

/-! ### Single-shot scheduler

Calls issued to the notification delivery adapter are recorded as a trace.
`AdapterCall.schedule` records the stable identifier and the trigger
timestamp of `scheduleNotificationAsync`; `AdapterCall.cancel` records a
`cancelScheduledNotificationAsync`. -/

inductive AdapterCall
  | cancelAll
  | cancel (identifier : String)
  | schedule (identifier : String) (whenMs : Int)
deriving DecidableEq

def getNotificationId (eventId : String) : String := "event-" ++ eventId

/-- Model of `scheduleEventNotification` at call instant `now`: null without a
valid `remindOffsetMin`; null (before any adapter call) when the notify time
is strictly in the past; otherwise cancel the event's prior notification and
schedule a one-shot alert at the notify time under `"event-" + id`.  When the
notify time is an Invalid Date the past-check is false (dayjs), the prior
notification is still cancelled, and the schedule call itself throws and is
caught, yielding null with only the cancel in the trace. -/
def scheduleEventNotification (event : CalendarEvent) (now : Int) :
    Option String × List AdapterCall :=
  match event.remindOffsetMin with
  | none => (none, [])
  | some r =>
    if r < 0 then (none, [])
    else
      let nt := buildNotifyTime event
      if (match nt with | some t => decide (t < now) | none => false) then (none, [])
      else
        match nt with
        | some t =>
          (some (getNotificationId event.id),
            [.cancel (getNotificationId event.id), .schedule (getNotificationId event.id) t])
        | none => (none, [.cancel (getNotificationId event.id)])

/-- The `for` loop of `scheduleAllEventNotifications`: schedule each event in
order, counting the non-null results and concatenating the traces. -/
def scheduleLoop : List CalendarEvent → Int → Nat × List AdapterCall
  | [], _ => (0, [])
  | e :: rest, now =>
    let one := scheduleEventNotification e now
    let more := scheduleLoop rest now
    ((if one.1.isSome then 1 else 0) + more.1, one.2 ++ more.2)

/-- Model of `scheduleAllEventNotifications` over the loaded event list: keep
the events with `date >= today` (JS string comparison), cancel all
outstanding notifications, then run `scheduleEventNotification` on each. -/
def scheduleAllEventNotifications (events : List CalendarEvent) (today : String) (now : Int) :
    Nat × List AdapterCall :=
  let futureEvents := events.filter (fun e => charListLe today.toList e.date.toList)
  let looped := scheduleLoop futureEvents now
  (looped.1, AdapterCall.cancelAll :: looped.2)

/-- dayjs `add(i, unit)` for the four repeat rules; `none` is the `switch`
default (`continue`). -/
def addByRule (rule : String) (y m d i : Nat) : Option (Nat × Nat × Nat) :=
  match rule with
  | "daily" => some (civilFromDays (daysFromCivil y m d + i))
  | "weekly" => some (civilFromDays (daysFromCivil y m d + 7 * i))
  | "monthly" => some (addMonths y m d i)
  | "yearly" => some (addMonths y m d (12 * i))
  | _ => none

/-- Model of `scheduleRepeatingNotification`: a falsy or `"none"` repeat rule
delegates to `scheduleEventNotification`; otherwise each of the `count`
iterations advances the base date by the rule's unit and schedules a virtual
event with id `"<id>-repeat-<i>"` and the formatted date (an unparseable base
date stays an Invalid Date, formatted by dayjs as `"Invalid Date"`). -/
def scheduleRepeatingNotification (event : CalendarEvent) (count : Nat) (now : Int) :
    List AdapterCall :=
  match event.repeatRule with
  | none => (scheduleEventNotification event now).2
  | some rule =>
    if rule = "" ∨ rule = "none" then (scheduleEventNotification event now).2
    else
      (List.range count).flatMap (fun i =>
        let nextDate :=
          match parseDateYmd event.date with
          | some (y, m, d) =>
            match addByRule rule y m d i with
            | some ymd => some (formatYmd ymd)
            | none => none
          | none => some "Invalid Date"
        match nextDate with
        | none => []
        | some ds =>
          (scheduleEventNotification
            { event with id := event.id ++ "-repeat-" ++ natToString i, date := ds }
            now).2)

/-- Modelled from the spec: the behaviour §4.6 ascribes to `rescheduleAll` —
cancel everything, reload the events with `date ≥ today`, and re-run
`scheduleOne` for non-repeating events and `scheduleRepeating` (with its
default fan-out of 10) for events whose `repeatRule` is not `none`.  The
source's `scheduleAllEventNotifications` is compared against this. -/
def rescheduleAllClaim (events : List CalendarEvent) (today : String) (now : Int) :
    List AdapterCall :=
  AdapterCall.cancelAll ::
    (events.filter (fun e => charListLe today.toList e.date.toList)).flatMap (fun e =>
      match e.repeatRule with
      | none => (scheduleEventNotification e now).2
      | some rule =>
        if rule = "none" then (scheduleEventNotification e now).2
        else scheduleRepeatingNotification e 10 now)

/-! ### Helper lemmas -/

theorem stopOccurrenceNag_activeNags (k : String) (p w : Bool) (s : NagState) (q : String) :
    (stopOccurrenceNag k p w s).activeNags q = if q = k then none else s.activeNags q := by
  unfold stopOccurrenceNag
  cases h : s.activeNags k <;> by_cases hw : (p && w) = true <;>
    simp [h, hw] <;> first
      | rfl
      | (split <;> simp_all)

theorem stopOccurrenceNag_stopped (k : String) (p w : Bool) (s : NagState) (q : String) :
    (stopOccurrenceNag k p w s).stoppedOccurrences q =
      if q = k then true else s.stoppedOccurrences q := by
  unfold stopOccurrenceNag
  cases h : s.activeNags k <;> by_cases hw : (p && w) = true <;> simp [h, hw]

theorem stopOccurrenceNag_storage (k : String) (p w : Bool) (s : NagState) (q : String) :
    (stopOccurrenceNag k p w s).storage q =
      if (p && w) = true ∧ q = stopKeyOf k then .ok (some "1") else s.storage q := by
  unfold stopOccurrenceNag
  cases h : s.activeNags k <;> by_cases hw : (p && w) = true <;>
    simp [h, hw] <;> first
      | rfl
      | (split <;> simp_all)

theorem isOccurrenceStopped_false_iff (k : String) (s : NagState) :
    (isOccurrenceStopped k s).1 = false ↔
      s.stoppedOccurrences k = false ∧ s.storage (stopKeyOf k) ≠ .ok (some "1") := by
  unfold isOccurrenceStopped
  cases hm : s.stoppedOccurrences k <;> cases hv : s.storage (stopKeyOf k) <;> simp [hm, hv]
  case false.ok v =>
    cases v with
    | none => simp
    | some x => by_cases hx : x = "1" <;> simp [hx]

theorem isOccurrenceStopped_state_of_false (k : String) (s : NagState) :
    (isOccurrenceStopped k s).1 = false → (isOccurrenceStopped k s).2 = s := by
  unfold isOccurrenceStopped
  cases hm : s.stoppedOccurrences k <;> cases hv : s.storage (stopKeyOf k) <;> simp [hm, hv]
  case false.ok v =>
    cases v with
    | none => simp
    | some x => by_cases hx : x = "1" <;> simp [hx]

theorem isOccurrenceStopped_activeNags (k : String) (s : NagState) :
    (isOccurrenceStopped k s).2.activeNags = s.activeNags := by
  unfold isOccurrenceStopped
  cases hm : s.stoppedOccurrences k <;> cases hv : s.storage (stopKeyOf k) <;> simp [hm, hv]
  case false.ok v =>
    cases v with
    | none => simp
    | some x => by_cases hx : x = "1" <;> simp [hx]

theorem isOccurrenceStopped_storageEq (k : String) (s : NagState) :
    (isOccurrenceStopped k s).2.storage = s.storage := by
  unfold isOccurrenceStopped
  cases hm : s.stoppedOccurrences k <;> cases hv : s.storage (stopKeyOf k) <;> simp [hm, hv]
  case false.ok v =>
    cases v with
    | none => simp
    | some x => by_cases hx : x = "1" <;> simp [hx]

theorem isOccurrenceStopped_stoppedMem (k : String) (s : NagState) :
    (isOccurrenceStopped k s).1 = true →
    (isOccurrenceStopped k s).2.stoppedOccurrences k = true := by
  unfold isOccurrenceStopped
  cases hm : s.stoppedOccurrences k <;> cases hv : s.storage (stopKeyOf k) <;> simp [hm, hv]
  case false.ok v =>
    cases v with
    | none => simp
    | some x => by_cases hx : x = "1" <;> simp [hx]

/-! ### The claims -/

/-- C9: `stopOccurrenceNag` is idempotent and re-entrant-safe — a repeated
call (for any persist flag and any storage-write outcome) returns the state of
the single call unchanged; after any call, also on an occurrence with no
active campaign, the campaign map entry is absent and the key is in the
in-memory stop set; and `stopEventNagging` is exactly this operation at the
resolved occurrence key. -/
theorem stopOccurrenceNag_idempotent (k : String) (p w : Bool) (s : NagState) :
    stopOccurrenceNag k p w (stopOccurrenceNag k p w s) = stopOccurrenceNag k p w s ∧
    (stopOccurrenceNag k p w s).activeNags k = none ∧
    (stopOccurrenceNag k p w s).stoppedOccurrences k = true ∧
    (∀ eventId date, stopEventNagging eventId date p w s =
      stopOccurrenceNag (getOccurrenceKey eventId date) p w s) := by
  refine ⟨?_, by simp [stopOccurrenceNag_activeNags], by simp [stopOccurrenceNag_stopped],
    fun _ _ => rfl⟩
  ext q
  · simp only [stopOccurrenceNag_activeNags]
    split <;> rfl
  · simp only [stopOccurrenceNag_stopped]
    split <;> rfl
  · simp only [stopOccurrenceNag_storage]
    split <;> rename_i h
    · simp [h]
    · rfl

/-- C8: `isOccurrenceStopped` (total in this model, as the source catches the
storage rejection) returns true exactly when the key is in the in-memory set
or the persisted value at `"stop-reminding:" + key` is the literal `"1"`;
in the positive case the in-memory set ends up holding the key; any other
stored value, absence, or a failed read yields false; a false answer leaves
the state untouched, and the map and storage are never modified. -/
theorem isOccurrenceStopped_spec (k : String) (s : NagState) :
    ((isOccurrenceStopped k s).1 = true ↔
      s.stoppedOccurrences k = true ∨ s.storage (stopKeyOf k) = .ok (some "1")) ∧
    ((isOccurrenceStopped k s).1 = true →
      (isOccurrenceStopped k s).2.stoppedOccurrences k = true) ∧
    ((isOccurrenceStopped k s).1 = false → (isOccurrenceStopped k s).2 = s) ∧
    (s.storage (stopKeyOf k) = .err → s.stoppedOccurrences k = false →
      (isOccurrenceStopped k s).1 = false) ∧
    (isOccurrenceStopped k s).2.activeNags = s.activeNags ∧
    (isOccurrenceStopped k s).2.storage = s.storage := by
  refine ⟨?_, ?_, isOccurrenceStopped_state_of_false k s, ?_, ?_, ?_⟩ <;>
    unfold isOccurrenceStopped <;>
    cases hm : s.stoppedOccurrences k <;> cases hv : s.storage (stopKeyOf k) <;>
      simp [hm, hv] <;>
      try (rename_i v; cases v with
        | none => simp
        | some x => by_cases hx : x = "1" <;> simp [hx])

def emptyState : NagState :=
  { activeNags := fun _ => none, stoppedOccurrences := fun _ => false,
    storage := fun _ => .ok none }

def errReadState : NagState := { emptyState with storage := fun _ => .err }

def activeState : NagState :=
  { activeNags := fun k => if k = "e1:2024-06-01" then some ⟨false, 1000⟩ else none,
    stoppedOccurrences := fun _ => false, storage := fun _ => .ok none }

def boundaryEvent : CalendarEvent :=
  { id := "e1", date := "2024-06-01", time := some "10:00", remindOffsetMin := some 0,
    repeatRule := none, type := "reminder", title := "demo", payload := none }

/-- Witness for C8: on a state whose storage read fails and whose in-memory
set is empty, the check is false. -/
theorem isOccurrenceStopped_spec_witness :
    (isOccurrenceStopped "e1:2024-06-01" errReadState).1 = false :=
  (isOccurrenceStopped_spec "e1:2024-06-01" errReadState).2.2.2.1 rfl rfl

theorem nagTick_expiry (k : String) (endAt now : Int) (s : NagState) (h1 : endAt ≤ now) :
    nagTick k endAt now s = (stopOccurrenceNag k false false s, false) := by
  unfold nagTick
  simp [h1]

theorem nagTick_stopped (k : String) (endAt now : Int) (s : NagState)
    (h1 : ¬ endAt ≤ now) (h2 : s.stoppedOccurrences k = true) :
    (nagTick k endAt now s).2 = false ∧
    (nagTick k endAt now s).1.activeNags k = none ∧
    (nagTick k endAt now s).1.storage = s.storage := by
  unfold nagTick
  simp only [if_neg h1, h2, if_true]
  cases hA : s.activeNags k <;> simp [hA]

/-- C2: on a timer tick, `now ≥ endAt` stops the campaign — no fire, entry
removed, key recorded in the in-memory stop set, storage untouched (the
expiry stop does not persist); a tick that observes the key in the in-memory
stop set clears the timer and removes the entry without firing; and a fire
can only be requested strictly before `endAt` with no stop recorded. -/
theorem nagTick_no_fire_after_end_or_stop (k : String) (endAt now : Int) (s : NagState) :
    (endAt ≤ now →
      (nagTick k endAt now s).2 = false ∧
      (nagTick k endAt now s).1.activeNags k = none ∧
      (nagTick k endAt now s).1.stoppedOccurrences k = true ∧
      (nagTick k endAt now s).1.storage = s.storage) ∧
    (s.stoppedOccurrences k = true →
      (nagTick k endAt now s).2 = false ∧
      (nagTick k endAt now s).1.activeNags k = none ∧
      (nagTick k endAt now s).1.storage = s.storage) ∧
    ((nagTick k endAt now s).2 = true → now < endAt ∧ s.stoppedOccurrences k = false) := by
  refine ⟨?_, ?_, ?_⟩
  · intro h1
    rw [nagTick_expiry k endAt now s h1]
    refine ⟨rfl, ?_, ?_, ?_⟩
    · simp [stopOccurrenceNag_activeNags]
    · simp [stopOccurrenceNag_stopped]
    · funext q
      rw [stopOccurrenceNag_storage]
      simp
  · intro h2
    by_cases h1 : endAt ≤ now
    · rw [nagTick_expiry k endAt now s h1]
      refine ⟨rfl, ?_, ?_⟩
      · simp [stopOccurrenceNag_activeNags]
      · funext q
        rw [stopOccurrenceNag_storage]
        simp
    · exact nagTick_stopped k endAt now s h1 h2
  · intro hf
    by_cases h1 : endAt ≤ now
    · rw [nagTick_expiry k endAt now s h1] at hf
      exact absurd hf (by simp)
    · by_cases h2 : s.stoppedOccurrences k = true
      · exact absurd hf (by rw [(nagTick_stopped k endAt now s h1 h2).1]; simp)
      · exact ⟨not_le.mp h1, by simpa using h2⟩

/-- Witness for C2: a tick at exactly `endAt` on a live campaign fires
nothing, removes the entry, records the in-memory stop, and leaves storage
alone. -/
theorem nagTick_no_fire_witness :
    (nagTick "e1:2024-06-01" 1000 1000 activeState).2 = false ∧
    (nagTick "e1:2024-06-01" 1000 1000 activeState).1.activeNags "e1:2024-06-01" = none ∧
    (nagTick "e1:2024-06-01" 1000 1000 activeState).1.stoppedOccurrences "e1:2024-06-01" =
      true ∧
    (nagTick "e1:2024-06-01" 1000 1000 activeState).1.storage = activeState.storage :=
  (nagTick_no_fire_after_end_or_stop "e1:2024-06-01" 1000 1000 activeState).1 (by decide)

/-- C3: a tick requests a fire only when the slot exists with `sending =
false`, and then flips the flag to true before the request goes out; a tick
that observes `sending = true` requests nothing; and the asynchronous
completion handler resets the flag (on whatever entry is present, and only
for this key). -/
theorem nagTick_sendingFlag_guard (k : String) (endAt now : Int) (s : NagState) :
    ((nagTick k endAt now s).2 = true →
      ∃ slot, s.activeNags k = some slot ∧ slot.sending = false ∧
        (nagTick k endAt now s).1.activeNags k = some { slot with sending := true }) ∧
    (∀ slot, s.activeNags k = some slot → slot.sending = true →
      (nagTick k endAt now s).2 = false) ∧
    ((fireComplete k s).activeNags k =
      (s.activeNags k).map (fun slot => { slot with sending := false })) ∧
    (∀ q, q ≠ k → (fireComplete k s).activeNags q = s.activeNags q) := by
  refine ⟨?_, ?_, ?_, ?_⟩
  · unfold nagTick
    by_cases h1 : endAt ≤ now
    · simp [h1]
    · simp only [h1, if_false]
      by_cases h2 : s.stoppedOccurrences k = true
      · simp only [h2, if_true]
        cases hA : s.activeNags k <;> simp
      · simp only [h2]
        cases hA : s.activeNags k with
        | none => simp
        | some slot =>
          by_cases hs : slot.sending <;> simp [hA, hs]
  · intro slot hA hs
    unfold nagTick
    by_cases h1 : endAt ≤ now
    · simp [h1]
    · simp only [h1, if_false]
      by_cases h2 : s.stoppedOccurrences k = true
      · simp [h2]
      · simp [h2, hA, hs]
  · unfold fireComplete
    cases hA : s.activeNags k <;> simp [hA]
  · intro q hq
    unfold fireComplete
    cases hA : s.activeNags k <;> simp [hA, hq]

def sendingState : NagState :=
  { activeNags := fun k => if k = "e1:2024-06-01" then some ⟨true, 1000⟩ else none,
    stoppedOccurrences := fun _ => false, storage := fun _ => .ok none }

/-- Witness for C3: a tick that finds the fire in flight requests nothing. -/
theorem nagTick_sendingFlag_witness :
    (nagTick "e1:2024-06-01" 1000 500 sendingState).2 = false :=
  (nagTick_sendingFlag_guard "e1:2024-06-01" 1000 500 sendingState).2.1
    ⟨true, 1000⟩ (by decide) rfl

/-- C4: `startEventNagging` is a no-op — no timer, no immediate fire, campaign
map untouched — when the reminder is absent or negative (state fully
unchanged), when the stop check answers true (the check may only cache the
persisted flag into memory), or when the key is already active; and a second
call on the state produced by a successful start changes nothing and leaves
the single campaign entry `{sending := false, endAt}` in place. -/
theorem startEventNagging_idempotent_guards (event : CalendarEvent) (now now2 : Int)
    (s : NagState) :
    (event.remindOffsetMin = none → startEventNagging event now s = ⟨s, false, false⟩) ∧
    (∀ r, event.remindOffsetMin = some r → r < 0 →
      startEventNagging event now s = ⟨s, false, false⟩) ∧
    ((isOccurrenceStopped (getOccurrenceKey event.id event.date) s).1 = true →
      (startEventNagging event now s).timerCreated = false ∧
      (startEventNagging event now s).immediateFire = false ∧
      (startEventNagging event now s).state.activeNags = s.activeNags) ∧
    (s.activeNags (getOccurrenceKey event.id event.date) ≠ none →
      (startEventNagging event now s).timerCreated = false ∧
      (startEventNagging event now s).immediateFire = false ∧
      (startEventNagging event now s).state.activeNags = s.activeNags) ∧
    ((startEventNagging event now s).timerCreated = true →
      startEventNagging event now2 (startEventNagging event now s).state =
        ⟨(startEventNagging event now s).state, false, false⟩ ∧
      (startEventNagging event now s).state.activeNags
          (getOccurrenceKey event.id event.date) =
        some ⟨false, calculateNagEndTime event now⟩) := by
  refine ⟨?_, ?_, ?_, ?_, ?_⟩
  · intro h
    simp [startEventNagging, h]
  · intro r h hr
    simp [startEventNagging, h, hr]
  · intro h
    unfold startEventNagging
    cases hro : event.remindOffsetMin with
    | none => simp
    | some r =>
      by_cases hr : r < 0
      · simp [hr]
      · simp only [hr, if_false]
        simp [h, isOccurrenceStopped_activeNags]
  · intro h
    unfold startEventNagging
    cases hro : event.remindOffsetMin with
    | none => simp
    | some r =>
      by_cases hr : r < 0
      · simp [hr]
      · simp only [hr, if_false]
        by_cases hst : (isOccurrenceStopped (getOccurrenceKey event.id event.date) s).1
        · simp [hst, isOccurrenceStopped_activeNags]
        · have h2 := isOccurrenceStopped_state_of_false
            (getOccurrenceKey event.id event.date) s (by simpa using hst)
          simp [hst, h2, Option.isSome_iff_ne_none, h]
  · intro h
    cases hro : event.remindOffsetMin with
    | none => simp [startEventNagging, hro] at h
    | some r =>
      by_cases hr : r < 0
      · simp [startEventNagging, hro, hr] at h
      · by_cases hst : (isOccurrenceStopped (getOccurrenceKey event.id event.date) s).1
        · simp [startEventNagging, hro, hr, hst] at h
        · have hstate := isOccurrenceStopped_state_of_false
            (getOccurrenceKey event.id event.date) s (by simpa using hst)
          by_cases hA : s.activeNags (getOccurrenceKey event.id event.date) = none
          · have hmem := (isOccurrenceStopped_false_iff
              (getOccurrenceKey event.id event.date) s).mp (by simpa using hst)
            have hstart : startEventNagging event now s =
                ⟨{ s with activeNags := fun q =>
                    if q = getOccurrenceKey event.id event.date then
                      some ⟨false, calculateNagEndTime event now⟩
                    else s.activeNags q }, true, true⟩ := by
              simp [startEventNagging, hro, hr, hst, hstate, hA]
            rw [hstart]
            refine ⟨?_, by simp⟩
            have hmem2 : (isOccurrenceStopped (getOccurrenceKey event.id event.date)
                { s with activeNags := fun q =>
                    if q = getOccurrenceKey event.id event.date then
                      some ⟨false, calculateNagEndTime event now⟩
                    else s.activeNags q }).1 = false :=
              (isOccurrenceStopped_false_iff _ _).mpr ⟨hmem.1, hmem.2⟩
            have hstate2 := isOccurrenceStopped_state_of_false _ _ hmem2
            simp [startEventNagging, hro, hr, hmem2, hstate2]
          · simp [startEventNagging, hro, hr, hst, hstate, hA,
              Option.isSome_iff_ne_none] at h

/-- Witness for C4: starting the campaign twice from the empty state creates
it once and the second call is a strict no-op with the single entry intact. -/
theorem startEventNagging_idempotent_witness :
    startEventNagging boundaryEvent 0
        (startEventNagging boundaryEvent 0 emptyState).state =
      ⟨(startEventNagging boundaryEvent 0 emptyState).state, false, false⟩ ∧
    (startEventNagging boundaryEvent 0 emptyState).state.activeNags
        (getOccurrenceKey boundaryEvent.id boundaryEvent.date) =
      some ⟨false, calculateNagEndTime boundaryEvent 0⟩ :=
  (startEventNagging_idempotent_guards boundaryEvent 0 0 emptyState).2.2.2.2 (by decide)

/-- C7: `scheduleEventNotification` returns null with an empty adapter trace
when the reminder is absent or negative, or when the computed notify time is
strictly before `now` (in particular no cancellation is issued then);
otherwise it first cancels the event's prior notification and then schedules
a one-shot alert at the notify time under the stable identifier
`"event-" + id`; the notify time is the event date-time minus
`remindOffsetMin` minutes, and the date-time defaults to 09:00 local time
when the event carries no explicit time. -/
theorem scheduleEventNotification_spec (event : CalendarEvent) (now : Int) :
    (event.remindOffsetMin = none → scheduleEventNotification event now = (none, [])) ∧
    (∀ r, event.remindOffsetMin = some r → r < 0 →
      scheduleEventNotification event now = (none, [])) ∧
    (∀ t, buildNotifyTime event = some t → t < now →
      scheduleEventNotification event now = (none, [])) ∧
    (∀ r t, event.remindOffsetMin = some r → 0 ≤ r → buildNotifyTime event = some t →
      now ≤ t →
      scheduleEventNotification event now =
        (some (getNotificationId event.id),
          [.cancel (getNotificationId event.id),
            .schedule (getNotificationId event.id) t])) ∧
    getNotificationId event.id = "event-" ++ event.id ∧
    (∀ t0, buildEventDateTime event = some t0 →
      buildNotifyTime event = some (t0 - (event.remindOffsetMin.getD 0) * 60000)) ∧
    (∀ y m d, event.time = none → parseDateYmd event.date = some (y, m, d) →
      buildEventDateTime event = some (epochMs y m d 9 0)) := by
  refine ⟨?_, ?_, ?_, ?_, rfl, ?_, ?_⟩
  · intro h
    simp [scheduleEventNotification, h]
  · intro r h hr
    simp [scheduleEventNotification, h, hr]
  · intro t ht hlt
    unfold scheduleEventNotification
    cases hro : event.remindOffsetMin with
    | none => rfl
    | some r =>
      by_cases hr : r < 0
      · simp [hr]
      · simp [hr, ht, hlt]
  · intro r t hro hr ht hle
    unfold scheduleEventNotification
    rw [hro]
    simp [not_lt.mpr hr, ht, not_lt.mpr hle]
  · intro t0 h0
    unfold buildNotifyTime
    rw [h0]
    rfl
  · intro y m d htime hparse
    unfold buildEventDateTime
    rw [htime, hparse]
    rfl

/-- Witness for C7: a reminder at the event time schedules after cancelling,
under the stable identifier. -/
theorem scheduleEventNotification_spec_witness :
    scheduleEventNotification boundaryEvent 0 =
      (some (getNotificationId boundaryEvent.id),
        [.cancel (getNotificationId boundaryEvent.id),
          .schedule (getNotificationId boundaryEvent.id) (epochMs 2024 6 1 10 0)]) :=
  (scheduleEventNotification_spec boundaryEvent 0).2.2.2.1 0 (epochMs 2024 6 1 10 0)
    rfl (by decide) (by decide) (by decide)

/-- C5 (amended): the watcher's per-event decision starts a campaign exactly
when the event has a defined non-negative `remindOffsetMin` and `now` lies in
the OPEN interval `(notifyTime, endAt)` — the source requires `now` strictly
after the notify time, so the boundary instant `now = notifyTime` does not
start a campaign — and a tick invokes `startEventNagging` on exactly the
events of today's list that pass this decision. -/
theorem watcherEventCheck_iff (event : CalendarEvent) (now : Int)
    (events : List CalendarEvent) :
    (watcherEventCheck event now = true ↔
      (∃ r, event.remindOffsetMin = some r ∧ 0 ≤ r) ∧
      (∃ t, buildNotifyTime event = some t ∧ t < now ∧
        now < calculateNagEndTime event now)) ∧
    (event ∈ dueWatcherCheck events now ↔
      event ∈ events ∧ watcherEventCheck event now = true) := by
  constructor
  · unfold watcherEventCheck
    cases hro : event.remindOffsetMin with
    | none => simp
    | some r =>
      by_cases hr : r < 0
      · simp only [hr, if_true]
        constructor
        · intro h
          exact absurd h (by simp)
        · rintro ⟨⟨r2, hr2, hr2n⟩, -⟩
          simp only [Option.some.injEq] at hr2
          omega
      · have hr0 : 0 ≤ r := le_of_not_lt hr
        cases hnt : buildNotifyTime event with
        | none => simp [hr, hnt]
        | some nt => simp [hr, hnt, hr0]
  · simp [dueWatcherCheck, List.mem_filter]

def boundaryNow : Int := epochMs 2024 6 1 10 0

/-- C5 counterexample: at the boundary instant `now = notifyTime` — which
lies inside the claim's half-open interval `[notifyTime, endAt)`, since
`endAt = now + 5` minutes here — the watcher does not start a campaign. -/
theorem watcher_boundary_cex :
    buildNotifyTime boundaryEvent = some boundaryNow ∧
    boundaryNow < calculateNagEndTime boundaryEvent boundaryNow ∧
    watcherEventCheck boundaryEvent boundaryNow = false := by
  decide

/-- C10: an event not classified as a time-range occurrence gets, at every
watcher evaluation instant, the nag end time `now + 5` minutes — always
strictly after `now` — so the end-time conjunct of the watcher decision is
vacuous and the watcher attempts `startEventNagging` on every tick for the
rest of the day exactly when the reminder is valid and `now` is strictly past
the notify time (only the stop-flag and already-active guards inside
`startEventNagging` then prevent a restart). -/
theorem alarm_end_time_vacuous (event : CalendarEvent) (now : Int) :
    isTimeRangeEvent event = none →
    calculateNagEndTime event now = now + 300000 ∧
    now < calculateNagEndTime event now ∧
    (watcherEventCheck event now = true ↔
      (∃ r, event.remindOffsetMin = some r ∧ 0 ≤ r) ∧
      (∃ t, buildNotifyTime event = some t ∧ t < now)) := by
  intro h
  have hend : calculateNagEndTime event now = now + 300000 := by
    unfold calculateNagEndTime
    rw [h]
    show now + 5 * 60000 = now + 300000
    omega
  have hlt : now < calculateNagEndTime event now := by
    rw [hend]
    omega
  refine ⟨hend, hlt, ?_⟩
  unfold watcherEventCheck
  cases hro : event.remindOffsetMin with
  | none => simp
  | some r =>
    by_cases hr : r < 0
    · simp only [hr, if_true]
      constructor
      · intro hx
        exact absurd hx (by simp)
      · rintro ⟨⟨r2, hr2, hr2n⟩, -⟩
        simp only [Option.some.injEq] at hr2
        omega
    · have hr0 : 0 ≤ r := le_of_not_lt hr
      cases hnt : buildNotifyTime event with
      | none => simp [hr, hnt]
      | some nt => simp [hr, hnt, hr0, hlt]

/-- Witness for C10: a plain reminder event is not a range event; at `now = 0`
its end time is `0 + 5` minutes and the watcher condition reduces to the
notify-time comparison. -/
theorem alarm_end_time_vacuous_witness :
    calculateNagEndTime boundaryEvent 0 = 0 + 300000 ∧
    (0 : Int) < calculateNagEndTime boundaryEvent 0 ∧
    (watcherEventCheck boundaryEvent 0 = true ↔
      (∃ r, boundaryEvent.remindOffsetMin = some r ∧ 0 ≤ r) ∧
      (∃ t, buildNotifyTime boundaryEvent = some t ∧ t < 0)) :=
  alarm_end_time_vacuous boundaryEvent 0 (by decide)

/-- C1 (amended): a terminal transition removes the campaign map entry, but
every stop — including the expiry path, which persists nothing — also records
the key in the in-memory stop set; a later `startEventNagging` for a key in
that set is a strict no-op, so an expired campaign is not restarted within
the same process, and a new campaign is permitted exactly when no in-memory
stop entry, no persisted `"1"` flag and no active campaign exists for the key
(as after a process restart following a non-persisted stop). -/
theorem terminal_removal_and_restart (event : CalendarEvent) (r endAt now now2 : Int)
    (s : NagState) (key : String) (hk : key = getOccurrenceKey event.id event.date) :
    (endAt ≤ now →
      (nagTick key endAt now s).1.activeNags key = none ∧
      (nagTick key endAt now s).1.stoppedOccurrences key = true ∧
      (nagTick key endAt now s).1.storage = s.storage) ∧
    (s.stoppedOccurrences key = true →
      startEventNagging event now2 s = ⟨s, false, false⟩) ∧
    (event.remindOffsetMin = some r → 0 ≤ r →
      s.stoppedOccurrences key = false →
      s.storage (stopKeyOf key) ≠ ReadResult.ok (some "1") →
      s.activeNags key = none →
      (startEventNagging event now2 s).timerCreated = true ∧
      (startEventNagging event now2 s).immediateFire = true ∧
      (startEventNagging event now2 s).state.activeNags key =
        some ⟨false, calculateNagEndTime event now2⟩) := by
  subst hk
  refine ⟨?_, ?_, ?_⟩
  · intro h1
    rw [nagTick_expiry _ endAt now s h1]
    refine ⟨?_, ?_, ?_⟩
    · simp [stopOccurrenceNag_activeNags]
    · simp [stopOccurrenceNag_stopped]
    · funext q
      rw [stopOccurrenceNag_storage]
      simp
  · intro h2
    unfold startEventNagging
    cases hro : event.remindOffsetMin with
    | none => rfl
    | some r2 =>
      by_cases hr : r2 < 0
      · simp [hr]
      · have hmem : (isOccurrenceStopped (getOccurrenceKey event.id event.date) s) =
            (true, s) := by
          unfold isOccurrenceStopped
          simp [h2]
        simp [hr, hmem]
  · intro hro hr hmem hstore hA
    have hfalse : (isOccurrenceStopped (getOccurrenceKey event.id event.date) s).1 =
        false :=
      (isOccurrenceStopped_false_iff _ _).mpr ⟨hmem, hstore⟩
    have hstate := isOccurrenceStopped_state_of_false _ _ hfalse
    simp [startEventNagging, hro, not_lt.mpr hr, hfalse, hstate, hA]

/-- Witness for C1 (amended): in a fresh process state — empty in-memory stop
set, no persisted flag, no active campaign — a valid event starts a campaign
and fires immediately. -/
theorem terminal_removal_and_restart_witness :
    (startEventNagging boundaryEvent 0 emptyState).timerCreated = true ∧
    (startEventNagging boundaryEvent 0 emptyState).immediateFire = true ∧
    (startEventNagging boundaryEvent 0 emptyState).state.activeNags
        (getOccurrenceKey boundaryEvent.id boundaryEvent.date) =
      some ⟨false, calculateNagEndTime boundaryEvent 0⟩ :=
  (terminal_removal_and_restart boundaryEvent 0 1000 1000 0 emptyState
      (getOccurrenceKey boundaryEvent.id boundaryEvent.date) rfl).2.2
    rfl (by decide) rfl (by decide) rfl

def expiredState : NagState := (nagTick "e1:2024-06-01" 1000 1000 activeState).1

/-- C1 counterexample: the expiry tick runs the non-persisting stop — storage
still carries no Stop Flag for the key, and the map entry is gone — yet a
subsequent valid `startEventNagging` for the same occurrence key in the same
process creates no campaign and fires nothing: expiry alone suppresses the
restart, contrary to the claim. -/
theorem expiry_suppresses_restart_cex :
    expiredState.activeNags "e1:2024-06-01" = none ∧
    expiredState.storage (stopKeyOf "e1:2024-06-01") = ReadResult.ok none ∧
    boundaryEvent.remindOffsetMin = some 0 ∧
    getOccurrenceKey boundaryEvent.id boundaryEvent.date = "e1:2024-06-01" ∧
    (startEventNagging boundaryEvent 2000 expiredState).timerCreated = false ∧
    (startEventNagging boundaryEvent 2000 expiredState).immediateFire = false ∧
    (startEventNagging boundaryEvent 2000 expiredState).state.activeNags
      "e1:2024-06-01" = none := by
  decide

theorem scheduleLoop_trace (events : List CalendarEvent) (now : Int) :
    (scheduleLoop events now).2 =
      events.flatMap (fun e => (scheduleEventNotification e now).2) := by
  induction events with
  | nil => rfl
  | cons e rest ih => simp [scheduleLoop, ih]

/-- C6 (amended): `scheduleAllEventNotifications` cancels every outstanding
notification, keeps exactly the loaded events with `date ≥ today`, and runs
the single-shot `scheduleEventNotification` for each of them — including
events whose `repeatRule` is not `none`; `scheduleRepeatingNotification`'s
fan-out is not invoked on this path. -/
theorem scheduleAll_trace_eq (events : List CalendarEvent) (today : String) (now : Int) :
    (scheduleAllEventNotifications events today now).2 =
      AdapterCall.cancelAll ::
        (events.filter (fun e => charListLe today.toList e.date.toList)).flatMap
          (fun e => (scheduleEventNotification e now).2) := by
  unfold scheduleAllEventNotifications
  simp [scheduleLoop_trace]

def weeklyEvent : CalendarEvent :=
  { id := "r1", date := "2024-01-01", time := some "10:00", remindOffsetMin := some 0,
    repeatRule := some "weekly", type := "reminder", title := "wk", payload := none }

/-- C6 counterexample: on a list holding one weekly repeating event dated
today, the source's `scheduleAllEventNotifications` emits a single base-date
`scheduleEventNotification` trace, not the `scheduleRepeatingNotification`
fan-out the claim prescribes for events with a non-`none` repeat rule. -/
theorem scheduleAll_repeat_cex :
    (scheduleAllEventNotifications [weeklyEvent] "2024-01-01" 0).2 ≠
      rescheduleAllClaim [weeklyEvent] "2024-01-01" 0 := by
  decide

end MyCalendar
